import Mathlib

/-!
Verification of `scripts/convert_pincodes.py`: a one-shot converter that reads
a postal-code CSV (and optionally a bank-serviceability CSV) and writes JSON
lookup files.  The script is embedded shallowly: `csv.DictReader` rows become
association lists from column name to optional cell value, Python's `or`
chains and `str`/`strip` become explicit functions, the insertion-ordered
Python `dict` becomes an association list with in-place overwrite, and the
`main` entry point becomes a pure function from arguments and an abstract
file system to a run trace (exit code, directories created, files read,
files written).
-/

set_option maxHeartbeats 1000000

namespace ConvertPincodes

/-- A CSV cell as Python sees it: `none` models Python `None` (an absent key,
or a short row padded by `csv.DictReader` with `restval=None`), `some s` a
string cell. -/
abbrev Cell := Option String

/-- A row produced by `csv.DictReader`: an association list from column name
to cell value. -/
abbrev Row := List (String × Cell)

/-- Python `row.get(k)`: `None` when the key is absent, otherwise the stored
value (which may itself be `None`). -/
def rowGet (row : Row) (k : String) : Option String :=
  match row.lookup k with
  | some v => v
  | none => none

/-- Python `a or b` restricted to operands that are `None` or strings: `a`
when `a` is truthy (a non-empty string), otherwise `b` unchanged. -/
def pyOr (a b : Option String) : Option String :=
  match a with
  | some s => if s = "" then b else some s
  | none => b

/-- Fold of a Python chain `v1 or v2 or ... or vn`.  There is no implicit
trailing element: when every operand is falsy the chain yields the last
operand as it is (`None` or an empty string). -/
def orChain : List (Option String) → Option String
  | [] => none
  | [a] => a
  | a :: b :: rest => pyOr a (orChain (b :: rest))

/-- Python `str(p)` for a `p` that is `None` or a string; `str(None)` is the
four-character string `"None"`. -/
def pyStr : Option String → String
  | none => "None"
  | some s => s

/-- The whitespace characters removed by Python `str.strip()`, restricted to
the ASCII range actually occurring in CSV data: space, tab, newline,
carriage return, vertical tab and form feed. -/
def pyIsSpace (c : Char) : Bool :=
  c == ' ' || c == '\t' || c == '\n' || c == '\r' ||
    c == Char.ofNat 11 || c == Char.ofNat 12

/-- Python `s.strip()`: remove leading and trailing whitespace. -/
def pyStrip (s : String) : String :=
  ⟨((s.data.dropWhile pyIsSpace).reverse.dropWhile pyIsSpace).reverse⟩

/-- The record shape produced by `normalize_record`. -/
structure PincodeRecord where
  pincode : String
  officeName : String
  district : String
  state : String
deriving DecidableEq, Repr

/-- Column-name variants tried for the pincode field (source line 29). -/
def pincodeKeys : List String := ["pincode", "PINCODE", "Pincode", "PinCode"]

/-- Column-name variants tried for the office-name field (source line 30). -/
def officeKeys : List String :=
  ["officeName", "OFFICENAME", "OfficeName", "office", "Office"]

/-- Column-name variants tried for the district field (source line 31). -/
def districtKeys : List String := ["district", "DISTRICT", "District"]

/-- Column-name variants tried for the state field (source line 32). -/
def stateKeys : List String := ["state", "STATE", "State"]

/-- Embedding of `normalize_record` (source lines 27-33).  The pincode chain
has no `or ''` fallback, so when every variant is falsy the value is the one
produced by the last `row.get`, and `str` of a Python `None` is `"None"`.
The other three fields end their chains with `or ''`.  `.strip()` is modelled
by `pyStrip`. -/
def normalize_record (row : Row) : PincodeRecord :=
  let p := orChain (pincodeKeys.map (rowGet row))
  let office := orChain (officeKeys.map (rowGet row) ++ [some ""])
  let district := orChain (districtKeys.map (rowGet row) ++ [some ""])
  let state := orChain (stateKeys.map (rowGet row) ++ [some ""])
  { pincode := pyStrip (pyStr p)
    officeName := pyStrip (office.getD "")
    district := pyStrip (district.getD "")
    state := pyStrip (state.getD "") }

/-- Python `d[k] = v` on an insertion-ordered `dict`: an existing key keeps
its position and gets the new value, a new key is appended at the end. -/
def dictInsert (d : List (String × α)) (k : String) (v : α) :
    List (String × α) :=
  if (d.lookup k).isSome then
    d.map (fun kv => if kv.1 = k then (k, v) else kv)
  else
    d ++ [(k, v)]

/-- One iteration of the accumulation loop in `main` (source lines 49-54):
normalize the row, skip it when the pincode is empty, otherwise append the
record to the array and assign it into the index. -/
def mainStep (acc : List PincodeRecord × List (String × PincodeRecord))
    (r : Row) : List PincodeRecord × List (String × PincodeRecord) :=
  let nr := normalize_record r
  if nr.pincode = "" then acc
  else (acc.1 ++ [nr], dictInsert acc.2 nr.pincode nr)

/-- The whole accumulation loop of `main`: the records array (written to
`pincodes.json`) and the pincode index (written to `index.json`). -/
def mainLoop (rows : List Row) :
    List PincodeRecord × List (String × PincodeRecord) :=
  rows.foldl mainStep ([], [])

/-- The entry shape appended for each bank row. -/
structure BankEntry where
  bank : String
  status : String
deriving DecidableEq, Repr

/-- Column-name variants tried for the bank field (source line 72). -/
def bankNameKeys : List String := ["bank", "Bank", "BANK"]

/-- Column-name variants tried for the status field (source line 73). -/
def bankStatusKeys : List String := ["status", "Status", "STATUS"]

/-- The pincode extracted from a bank row (source line 71): the `or` chain
here ends with `or ''`, then `.strip()`. -/
def bankPin (b : Row) : String :=
  pyStrip ((orChain (pincodeKeys.map (rowGet b) ++ [some ""])).getD "")

/-- The `{bank, status}` entry built from a bank row (source lines 72-73). -/
def bankEntryOf (b : Row) : BankEntry :=
  { bank := pyStrip ((orChain (bankNameKeys.map (rowGet b) ++ [some ""])).getD "")
    status :=
      pyStrip ((orChain (bankStatusKeys.map (rowGet b) ++ [some ""])).getD "") }

/-- One iteration of the bank loop (source lines 70-76): skip rows whose
pincode is empty, otherwise `bank_map.setdefault(p, []).append(entry)`. -/
def bankStep (m : List (String × List BankEntry)) (b : Row) :
    List (String × List BankEntry) :=
  let p := bankPin b
  if p = "" then m
  else dictInsert m p (((m.lookup p).getD []) ++ [bankEntryOf b])

/-- The whole bank loop: the mapping written to `bank_serviceability.json`. -/
def bankLoop (rows : List Row) : List (String × List BankEntry) :=
  rows.foldl bankStep []

/-- The fragment of JSON produced by the script: strings, arrays and
insertion-ordered objects. -/
inductive Json where
  | str : String → Json
  | arr : List Json → Json
  | obj : List (String × Json) → Json

/-- Serialization of one normalized record, as `json.dump` lays out a dict. -/
def recordToJson (r : PincodeRecord) : Json :=
  .obj [("pincode", .str r.pincode), ("officeName", .str r.officeName),
        ("district", .str r.district), ("state", .str r.state)]

/-- Serialization of the records array written to `pincodes.json`. -/
def pincodesJson (recs : List PincodeRecord) : Json :=
  .arr (recs.map recordToJson)

/-- Serialization of the pincode index written to `index.json`. -/
def indexJson (idx : List (String × PincodeRecord)) : Json :=
  .obj (idx.map (fun kv => (kv.1, recordToJson kv.2)))

/-- Serialization of one bank entry. -/
def bankEntryToJson (e : BankEntry) : Json :=
  .obj [("bank", .str e.bank), ("status", .str e.status)]

/-- Serialization of the mapping written to `bank_serviceability.json`. -/
def bankMapJson (m : List (String × List BankEntry)) : Json :=
  .obj (m.map (fun kv => (kv.1, .arr (kv.2.map bankEntryToJson))))

/-- Reading a string out of a parsed JSON value. -/
def jsonStr? : Json → Option String
  | .str s => some s
  | _ => none

/-- Reading one record back from a parsed JSON object, the way a consumer of
`pincodes.json` accesses the four fields of each element of `json.load`. -/
def jsonToRecord (j : Json) : Option PincodeRecord :=
  match j with
  | .obj l =>
    match (l.lookup "pincode").bind jsonStr?,
          (l.lookup "officeName").bind jsonStr?,
          (l.lookup "district").bind jsonStr?,
          (l.lookup "state").bind jsonStr? with
    | some p, some o, some d, some s => some ⟨p, o, d, s⟩
    | _, _, _, _ => none
  | _ => none

/-- Reading a list of records element by element; fails if any element is not
a well-formed record object. -/
def jsonToRecordList : List Json → Option (List PincodeRecord)
  | [] => some []
  | j :: rest =>
    match jsonToRecord j, jsonToRecordList rest with
    | some r, some rs => some (r :: rs)
    | _, _ => none

/-- Parsing `pincodes.json` back into records: the top-level value must be an
array. -/
def jsonToRecords : Json → Option (List PincodeRecord)
  | .arr l => jsonToRecordList l
  | _ => none

/-- Embedding of `os.path.join` for a directory and a file name. -/
def joinPath (d f : String) : String :=
  if d = "" then f else if d.endsWith "/" then d ++ f else d ++ "/" ++ f

/-- The observable trace of one run of the script: the process exit code, the
directories created, the paths read as CSV tables, and the files written with
their JSON contents, in order. -/
structure RunResult where
  exitCode : Nat
  dirsCreated : List String
  reads : List String
  written : List (String × Json)

/-- The paths of the files a run wrote. -/
def writtenPaths (res : RunResult) : List String :=
  res.written.map Prod.fst

/-- Embedding of `main` (source lines 36-82) over an abstract file system
`fs` mapping a path to the parsed rows of the CSV table stored there, or
`none` when no readable file is at that path.  Control flow in source order:
`argparse` rejects a missing `--pincsv` with a usage error (exit status 2)
before anything else; `os.makedirs(outdir, exist_ok=True)` runs next; then
the postal-code CSV is read — `open` on a missing path raises an uncaught
`FileNotFoundError`, terminating the process with status 1 after the
directory was already created and before any file is written;
`pincodes.json` and `index.json` are then written; the bank branch runs only
when `--bankcsv` was given a truthy (non-empty) value, reads the bank CSV
(again fatal if missing, after the first two files were written) and writes
`bank_serviceability.json`. -/
def runMain (pincsvArg bankcsvArg outdirArg : Option String)
    (fs : String → Option (List Row)) : RunResult :=
  match pincsvArg with
  | none => { exitCode := 2, dirsCreated := [], reads := [], written := [] }
  | some pincsv =>
    let outdir := outdirArg.getD "mock-api"
    match fs pincsv with
    | none =>
      { exitCode := 1, dirsCreated := [outdir], reads := [pincsv],
        written := [] }
    | some rows =>
      let L := mainLoop rows
      let baseWritten := [(joinPath outdir "pincodes.json", pincodesJson L.1),
                          (joinPath outdir "index.json", indexJson L.2)]
      match bankcsvArg with
      | none =>
        { exitCode := 0, dirsCreated := [outdir], reads := [pincsv],
          written := baseWritten }
      | some bankcsv =>
        if bankcsv = "" then
          { exitCode := 0, dirsCreated := [outdir], reads := [pincsv],
            written := baseWritten }
        else
          match fs bankcsv with
          | none =>
            { exitCode := 1, dirsCreated := [outdir],
              reads := [pincsv, bankcsv], written := baseWritten }
          | some brows =>
            { exitCode := 0, dirsCreated := [outdir],
              reads := [pincsv, bankcsv],
              written := baseWritten ++
                [(joinPath outdir "bank_serviceability.json",
                  bankMapJson (bankLoop brows))] }

/-- Spec-side field selection, written from the claim wording for comparison
with the code's `or` chains: the trimmed value of the first non-empty cell
among the given column-name variants, falling back to the empty string when
no variant holds a non-empty value. -/
def specSelect (row : Row) (keys : List String) : String :=
  pyStrip (((keys.filterMap (rowGet row)).filter (fun s => s ≠ "")).headD "")

/-! ### Association-list and dictionary lemmas -/

theorem lookup_append (d l : List (String × α)) (p : String) :
    (d ++ l).lookup p =
      match d.lookup p with
      | some b => some b
      | none => l.lookup p := by
  induction d with
  | nil => simp
  | cons a t ih =>
    rcases a with ⟨k0, b0⟩
    rw [List.cons_append, List.lookup_cons, List.lookup_cons]
    cases h : p == k0 <;> simp [ih]

theorem mapReplace_lookup_self (k : String) (v : α) :
    ∀ d : List (String × α), (d.lookup k).isSome →
      (d.map (fun kv => if kv.1 = k then (k, v) else kv)).lookup k = some v := by
  intro d
  induction d with
  | nil => simp
  | cons a t ih =>
    rcases a with ⟨k0, b0⟩
    intro hs
    by_cases hk : k0 = k
    · subst hk
      simp [List.lookup_cons]
    · rw [List.map_cons]
      have hk' : ((k0, b0).1 = k) = False := by simpa using hk
      rw [if_neg (by simpa using hk)]
      rw [List.lookup_cons]
      have hbeq : (k == k0) = false := by
        simp [beq_eq_false_iff_ne]
        exact fun h => hk h.symm
      rw [hbeq]
      apply ih
      rw [List.lookup_cons, hbeq] at hs
      exact hs

theorem mapReplace_lookup_ne (k p : String) (v : α) (hpk : p ≠ k) :
    ∀ d : List (String × α),
      (d.map (fun kv => if kv.1 = k then (k, v) else kv)).lookup p =
        d.lookup p := by
  intro d
  induction d with
  | nil => simp
  | cons a t ih =>
    rcases a with ⟨k0, b0⟩
    rw [List.map_cons]
    by_cases hk : k0 = k
    · subst hk
      rw [if_pos rfl, List.lookup_cons, List.lookup_cons]
      have hbeq : (p == k0) = false := by simpa [beq_eq_false_iff_ne] using hpk
      rw [hbeq]
      simp [ih]
    · rw [if_neg (by simpa using hk), List.lookup_cons, List.lookup_cons]
      cases h : p == k0 <;> simp [ih]

theorem dictInsert_lookup (d : List (String × α)) (k p : String) (v : α) :
    (dictInsert d k v).lookup p = if p = k then some v else d.lookup p := by
  unfold dictInsert
  by_cases hpk : p = k
  · subst hpk
    rw [if_pos rfl]
    by_cases hs : (d.lookup p).isSome
    · rw [if_pos hs]
      exact mapReplace_lookup_self p v d hs
    · rw [if_neg hs, lookup_append]
      have hn : d.lookup p = none := Option.not_isSome_iff_eq_none.mp hs
      rw [hn]
      simp [List.lookup_cons]
  · rw [if_neg hpk]
    by_cases hs : (d.lookup k).isSome
    · rw [if_pos hs]
      exact mapReplace_lookup_ne k p v hpk d
    · rw [if_neg hs, lookup_append]
      have hbeq : (p == k) = false := by simpa [beq_eq_false_iff_ne] using hpk
      cases h : d.lookup p <;> simp [List.lookup_cons, hbeq]

/-! ### The accumulation loop of `main` -/

theorem foldl_mainStep_fst (rows : List Row)
    (acc : List PincodeRecord × List (String × PincodeRecord)) :
    (rows.foldl mainStep acc).1 =
      acc.1 ++ (rows.map normalize_record).filter (fun r => r.pincode ≠ "") := by
  induction rows generalizing acc with
  | nil => simp
  | cons r t ih =>
    rw [List.foldl_cons, List.map_cons, List.filter_cons]
    by_cases h : (normalize_record r).pincode = ""
    · rw [mainStep, if_pos h]
      simp [h, ih]
    · rw [mainStep, if_neg h]
      simp [h, ih]

theorem mainLoop_fst (rows : List Row) :
    (mainLoop rows).1 =
      (rows.map normalize_record).filter (fun r => r.pincode ≠ "") := by
  simpa using foldl_mainStep_fst rows ([], [])

theorem foldl_mainStep_lookup (rows : List Row) (p : String) :
    ∀ acc : List PincodeRecord × List (String × PincodeRecord),
      acc.2.lookup p = (acc.1.filter (fun r => r.pincode = p)).getLast? →
      (rows.foldl mainStep acc).2.lookup p =
        ((rows.foldl mainStep acc).1.filter (fun r => r.pincode = p)).getLast? := by
  induction rows with
  | nil => intro acc h; simpa using h
  | cons r t ih =>
    intro acc h
    rw [List.foldl_cons]
    apply ih
    by_cases hr : (normalize_record r).pincode = ""
    · rw [mainStep, if_pos hr]
      exact h
    · rw [mainStep, if_neg hr]
      rw [dictInsert_lookup, List.filter_append]
      by_cases hp : p = (normalize_record r).pincode
      · rw [if_pos hp]
        have hone : ([normalize_record r].filter (fun r' => r'.pincode = p)) =
            [normalize_record r] := by
          simp [List.filter_cons, hp]
        rw [hone, List.getLast?_concat]
      · rw [if_neg hp]
        have hzero : ([normalize_record r].filter (fun r' => r'.pincode = p)) =
            [] := by
          simp [List.filter_cons]
          exact fun hc => hp hc.symm
        rw [hzero, List.append_nil, h]

theorem mainLoop_lookup (rows : List Row) (p : String) :
    (mainLoop rows).2.lookup p =
      ((mainLoop rows).1.filter (fun r => r.pincode = p)).getLast? := by
  apply foldl_mainStep_lookup
  simp

/-! ### The bank loop -/

/-- Appending entries to the optional list stored under a key: the key stays
absent when nothing is appended to an absent key, otherwise `setdefault`
materializes the list. -/
def appendOpt (o : Option (List BankEntry)) (es : List BankEntry) :
    Option (List BankEntry) :=
  match o with
  | some l => some (l ++ es)
  | none => if es.isEmpty then none else some es

/-- The entry a bank row contributes under the key `p`, if any. -/
def bankHit (p : String) (b : Row) : Option BankEntry :=
  if bankPin b = p then some (bankEntryOf b) else none

theorem appendOpt_nil (o : Option (List BankEntry)) : appendOpt o [] = o := by
  cases o <;> simp [appendOpt]

theorem appendOpt_appendOpt (o : Option (List BankEntry))
    (es1 es2 : List BankEntry) :
    appendOpt (appendOpt o es1) es2 = appendOpt o (es1 ++ es2) := by
  cases o with
  | some l => simp [appendOpt]
  | none =>
    cases es1 with
    | nil => simp [appendOpt]
    | cons e t =>
      simp [appendOpt]

theorem appendOpt_single (o : Option (List BankEntry)) (e : BankEntry) :
    appendOpt o [e] = some (o.getD [] ++ [e]) := by
  cases o <;> simp [appendOpt]

theorem foldl_bankStep_lookup (p : String) (hp : p ≠ "") :
    ∀ (rows : List Row) (m : List (String × List BankEntry)),
      (rows.foldl bankStep m).lookup p =
        appendOpt (m.lookup p) (rows.filterMap (bankHit p)) := by
  intro rows
  induction rows with
  | nil => intro m; simp [appendOpt_nil]
  | cons b t ih =>
    intro m
    rw [List.foldl_cons, List.filterMap_cons]
    by_cases hb : bankPin b = ""
    · have hmiss : bankHit p b = none := by
        rw [bankHit, if_neg]
        intro hc
        exact hp (hc ▸ hb)
      rw [bankStep, if_pos hb, hmiss, ih]
    · by_cases hbp : bankPin b = p
      · have hhit : bankHit p b = some (bankEntryOf b) := by
          rw [bankHit, if_pos hbp]
        rw [bankStep, if_neg hb, hhit, ih]
        rw [dictInsert_lookup, hbp, if_pos rfl]
        rw [← appendOpt_single, appendOpt_appendOpt]
        rfl
      · have hmiss : bankHit p b = none := by
          rw [bankHit, if_neg hbp]
        rw [bankStep, if_neg hb, hmiss, ih]
        rw [dictInsert_lookup, if_neg (fun hc => hbp hc.symm)]

theorem bankLoop_lookup (rows : List Row) (p : String) (hp : p ≠ "") :
    (bankLoop rows).lookup p =
      appendOpt none (rows.filterMap (bankHit p)) := by
  rw [bankLoop, foldl_bankStep_lookup p hp rows []]
  rfl

theorem foldl_bankStep_lookup_empty :
    ∀ (rows : List Row) (m : List (String × List BankEntry)),
      m.lookup "" = none → (rows.foldl bankStep m).lookup "" = none := by
  intro rows
  induction rows with
  | nil => intro m h; simpa using h
  | cons b t ih =>
    intro m h
    rw [List.foldl_cons]
    apply ih
    by_cases hb : bankPin b = ""
    · rw [bankStep, if_pos hb]
      exact h
    · rw [bankStep, if_neg hb]
      rw [dictInsert_lookup, if_neg (fun hc => hb hc.symm), h]

theorem bankLoop_lookup_empty (rows : List Row) :
    (bankLoop rows).lookup "" = none := by
  rw [bankLoop]
  exact foldl_bankStep_lookup_empty rows [] rfl

/-! ### Field selection versus the spec wording -/

theorem orChain_cons (a : Option String) (l : List (Option String))
    (h : l ≠ []) : orChain (a :: l) = pyOr a (orChain l) := by
  cases l with
  | nil => exact absurd rfl h
  | cons b t => rfl

theorem chain_default_eq (row : Row) :
    ∀ keys : List String,
      (orChain (keys.map (rowGet row) ++ [some ""])).getD "" =
        ((keys.filterMap (rowGet row)).filter (fun s => s ≠ "")).headD "" := by
  intro keys
  induction keys with
  | nil => simp [orChain]
  | cons k t ih =>
    rw [List.map_cons, List.cons_append, orChain_cons _ _ (by simp),
      List.filterMap_cons]
    cases hk : rowGet row k with
    | none => simpa [pyOr] using ih
    | some s =>
      by_cases hs : s = ""
      · subst hs
        simpa [pyOr] using ih
      · simp [pyOr, hs, List.filter_cons]

theorem chain_select_eq_specSelect (row : Row) (keys : List String) :
    pyStrip ((orChain (keys.map (rowGet row) ++ [some ""])).getD "") =
      specSelect row keys := by
  rw [specSelect, chain_default_eq]

theorem pin_chain_eq_of_truthy (row : Row) :
    ∀ keys : List String,
      (∃ s ∈ keys.filterMap (rowGet row), s ≠ "") →
      pyStr (orChain (keys.map (rowGet row))) =
        ((keys.filterMap (rowGet row)).filter (fun s => s ≠ "")).headD "" := by
  intro keys
  induction keys with
  | nil => intro h; simp at h
  | cons k t ih =>
    intro h
    rw [List.map_cons, List.filterMap_cons]
    cases hk : rowGet row k with
    | none =>
      rw [List.filterMap_cons, hk] at h
      cases t with
      | nil => simp at h
      | cons k2 t2 =>
        rw [orChain_cons _ _ (by simp)]
        simpa [pyOr] using ih h
    | some s =>
      rw [List.filterMap_cons, hk] at h
      by_cases hs : s = ""
      · subst hs
        have h' : ∃ x ∈ t.filterMap (rowGet row), x ≠ "" := by
          rcases h with ⟨x, hx, hxne⟩
          rcases List.mem_cons.mp hx with rfl | hx'
          · exact absurd rfl hxne
          · exact ⟨x, hx', hxne⟩
        cases t with
        | nil => simp at h'
        | cons k2 t2 =>
          rw [orChain_cons _ _ (by simp)]
          simpa [pyOr] using ih h'
      · cases t with
        | nil => simp [orChain, pyStr, List.filter_cons, hs]
        | cons k2 t2 =>
          rw [orChain_cons _ _ (by simp)]
          simp [pyOr, hs, pyStr, List.filter_cons]

theorem pincode_eq_specSelect_of_truthy (row : Row)
    (h : ∃ s ∈ pincodeKeys.filterMap (rowGet row), s ≠ "") :
    (normalize_record row).pincode = specSelect row pincodeKeys := by
  rw [normalize_record, specSelect]
  simp only []
  rw [pin_chain_eq_of_truthy row pincodeKeys h]

theorem officeName_eq_specSelect (row : Row) :
    (normalize_record row).officeName = specSelect row officeKeys := by
  rw [normalize_record]
  exact chain_select_eq_specSelect row officeKeys

theorem district_eq_specSelect (row : Row) :
    (normalize_record row).district = specSelect row districtKeys := by
  rw [normalize_record]
  exact chain_select_eq_specSelect row districtKeys

theorem state_eq_specSelect (row : Row) :
    (normalize_record row).state = specSelect row stateKeys := by
  rw [normalize_record]
  exact chain_select_eq_specSelect row stateKeys

theorem bankPin_eq_specSelect (b : Row) :
    bankPin b = specSelect b pincodeKeys := by
  rw [bankPin]
  exact chain_select_eq_specSelect b pincodeKeys

theorem bankEntry_bank_eq_specSelect (b : Row) :
    (bankEntryOf b).bank = specSelect b bankNameKeys := by
  rw [bankEntryOf]
  exact chain_select_eq_specSelect b bankNameKeys

theorem bankEntry_status_eq_specSelect (b : Row) :
    (bankEntryOf b).status = specSelect b bankStatusKeys := by
  rw [bankEntryOf]
  exact chain_select_eq_specSelect b bankStatusKeys

/-! ### JSON round trip -/

theorem jsonToRecord_recordToJson (r : PincodeRecord) :
    jsonToRecord (recordToJson r) = some r := rfl

theorem jsonToRecordList_map (recs : List PincodeRecord) :
    jsonToRecordList (recs.map recordToJson) = some recs := by
  induction recs with
  | nil => rfl
  | cons r t ih =>
    rw [List.map_cons, jsonToRecordList, jsonToRecord_recordToJson, ih]

/-! ### Output paths -/

theorem joinPath_data_inj (d f1 f2 : String)
    (h : joinPath d f1 = joinPath d f2) : f1.data = f2.data := by
  rw [joinPath, joinPath] at h
  by_cases h0 : d = ""
  · rw [if_pos h0, if_pos h0] at h
    exact congrArg String.data h
  · rw [if_neg h0, if_neg h0] at h
    by_cases h1 : d.endsWith "/"
    · rw [if_pos h1, if_pos h1] at h
      have := congrArg String.data h
      rw [String.data_append, String.data_append] at this
      exact List.append_cancel_left this
    · rw [if_neg h1, if_neg h1] at h
      have := congrArg String.data h
      rw [String.data_append, String.data_append, String.data_append,
        String.data_append] at this
      exact List.append_cancel_left this

/-! ### Claims -/

/-- C1: the claim states that a row in which no documented pincode column
variant is present (or in which every present variant is empty or
whitespace) normalizes to an empty pincode and is dropped from both outputs,
so that the array has exactly N minus K entries.  The code says otherwise:
`normalize_record` has no `or ''` fallback on the pincode chain (unlike the
other three fields, and unlike the bank branch), so a row without any
pincode variant yields Python `None`, `str(None).strip()` is the non-empty
string `"None"`, and the row is kept and indexed under the key `"None"`.
On the one-row input below the claim predicts an empty output array; the code
produces a one-element array. -/
theorem empty_pincode_drop_claim_fails_on_missing_column :
    normalize_record [("district", some "A"), ("state", some "B")] =
      { pincode := "None", officeName := "", district := "A", state := "B" } ∧
    (mainLoop [[("district", some "A"), ("state", some "B")]]).1.length = 1 ∧
    (mainLoop [[("district", some "A"), ("state", some "B")]]).2.lookup "None"
      = some { pincode := "None", officeName := "", district := "A",
               state := "B" } :=
  ⟨by decide, by decide, by decide⟩

/-- C2, counterexample: the claim as stated is false on the three-row input
below.  The second row is kept with the non-empty pincode `"110001"`, yet it
is not the value under the key `"110001"` in the index (the third row, which
shares the pincode, overwrote it); and the first row has the non-empty
normalized pincode `"None"` although no pincode column variant holds any
cell, so its pincode field does not equal the trimmed value of any source
cell. -/
theorem record_fields_and_index_claim_counterexample :
    (normalize_record [("pincode", some "110001"), ("district", some "B")]
      ).pincode = "110001" ∧
    normalize_record [("pincode", some "110001"), ("district", some "B")] ∈
      (mainLoop [[("district", some "A")],
        [("pincode", some "110001"), ("district", some "B")],
        [("pincode", some "110001"), ("district", some "C")]]).1 ∧
    (mainLoop [[("district", some "A")],
        [("pincode", some "110001"), ("district", some "B")],
        [("pincode", some "110001"), ("district", some "C")]]).2.lookup
          "110001" ≠
      some (normalize_record
        [("pincode", some "110001"), ("district", some "B")]) ∧
    (normalize_record [("district", some "A")]).pincode = "None" ∧
    pincodeKeys.filterMap (rowGet [("district", some "A")]) = [] :=
  ⟨by decide, by decide, by decide, by decide, by decide⟩

/-- C2, amended: for every row in which some pincode column variant holds a
non-empty cell and whose normalized pincode is non-empty, each field of the
resulting record equals the trimmed value of the first non-empty cell among
that field's documented case-variant column names (officeName, district and
state falling back to the empty string), the record appears in the
`pincodes.json` array, which lists the normalized rows in filtered input
order, and when the record is the last kept record with its pincode it is
the value under that pincode key in `index.json`. -/
theorem normalized_record_fields_and_outputs (rows : List Row) (r : Row)
    (hr : r ∈ rows)
    (hvar : ∃ s ∈ pincodeKeys.filterMap (rowGet r), s ≠ "")
    (hne : (normalize_record r).pincode ≠ "") :
    (normalize_record r).pincode = specSelect r pincodeKeys ∧
    (normalize_record r).officeName = specSelect r officeKeys ∧
    (normalize_record r).district = specSelect r districtKeys ∧
    (normalize_record r).state = specSelect r stateKeys ∧
    (mainLoop rows).1 =
      (rows.map normalize_record).filter (fun x => x.pincode ≠ "") ∧
    normalize_record r ∈ (mainLoop rows).1 ∧
    (((mainLoop rows).1.filter
        (fun x => x.pincode = (normalize_record r).pincode)).getLast? =
          some (normalize_record r) →
      (mainLoop rows).2.lookup (normalize_record r).pincode =
        some (normalize_record r)) := by
  refine ⟨pincode_eq_specSelect_of_truthy r hvar, officeName_eq_specSelect r,
    district_eq_specSelect r, state_eq_specSelect r, mainLoop_fst rows, ?_,
    ?_⟩
  · rw [mainLoop_fst]
    exact List.mem_filter.mpr
      ⟨List.mem_map_of_mem _ hr, by simpa using hne⟩
  · intro hlast
    rw [mainLoop_lookup, hlast]

/-- C2, witness: the amended theorem applied to a concrete one-row input
using the `Pincode` header variant and whitespace-padded cells. -/
theorem normalized_record_fields_and_outputs_witness :
    ([("Pincode", some " 110001 "), ("State", some " Delhi ")] : Row) ∈
      [([("Pincode", some " 110001 "), ("State", some " Delhi ")] : Row)] ∧
    (∃ s ∈ pincodeKeys.filterMap
        (rowGet [("Pincode", some " 110001 "), ("State", some " Delhi ")]),
      s ≠ "") ∧
    (normalize_record [("Pincode", some " 110001 "),
        ("State", some " Delhi ")]).pincode ≠ "" ∧
    ((normalize_record [("Pincode", some " 110001 "),
        ("State", some " Delhi ")]).pincode =
      specSelect [("Pincode", some " 110001 "), ("State", some " Delhi ")]
        pincodeKeys ∧
    (normalize_record [("Pincode", some " 110001 "),
        ("State", some " Delhi ")]).officeName =
      specSelect [("Pincode", some " 110001 "), ("State", some " Delhi ")]
        officeKeys ∧
    (normalize_record [("Pincode", some " 110001 "),
        ("State", some " Delhi ")]).district =
      specSelect [("Pincode", some " 110001 "), ("State", some " Delhi ")]
        districtKeys ∧
    (normalize_record [("Pincode", some " 110001 "),
        ("State", some " Delhi ")]).state =
      specSelect [("Pincode", some " 110001 "), ("State", some " Delhi ")]
        stateKeys ∧
    (mainLoop [[("Pincode", some " 110001 "), ("State", some " Delhi ")]]).1 =
      (([[("Pincode", some " 110001 "), ("State", some " Delhi ")]] :
          List Row).map normalize_record).filter
        (fun x => x.pincode ≠ "") ∧
    normalize_record [("Pincode", some " 110001 "), ("State", some " Delhi ")]
      ∈ (mainLoop
          [[("Pincode", some " 110001 "), ("State", some " Delhi ")]]).1 ∧
    (((mainLoop [[("Pincode", some " 110001 "),
          ("State", some " Delhi ")]]).1.filter
        (fun x => x.pincode =
          (normalize_record [("Pincode", some " 110001 "),
            ("State", some " Delhi ")]).pincode)).getLast? =
          some (normalize_record [("Pincode", some " 110001 "),
            ("State", some " Delhi ")]) →
      (mainLoop [[("Pincode", some " 110001 "),
          ("State", some " Delhi ")]]).2.lookup
        (normalize_record [("Pincode", some " 110001 "),
          ("State", some " Delhi ")]).pincode =
        some (normalize_record [("Pincode", some " 110001 "),
          ("State", some " Delhi ")]))) :=
  ⟨by decide, by decide, by decide,
    normalized_record_fields_and_outputs _ _ (by decide) (by decide)
      (by decide)⟩

/-- C3: for every key, the index built by the accumulation loop holds the
last kept record with that pincode (later rows overwrite earlier ones, no
merging), while the records array keeps every kept row's record in filtered
input order. -/
theorem index_last_write_wins_array_keeps_all (rows : List Row)
    (p : String) :
    (mainLoop rows).2.lookup p =
      ((mainLoop rows).1.filter (fun r => r.pincode = p)).getLast? ∧
    (mainLoop rows).1 =
      (rows.map normalize_record).filter (fun r => r.pincode ≠ "") :=
  ⟨mainLoop_lookup rows p, mainLoop_fst rows⟩

/-- C4: a bank row with an empty trimmed pincode is dropped; every other row
appends its entry (each field the trimmed first non-empty value among its
case variants, defaulting to the empty string) to the sequence under its
pincode key, which is created on first use, so every key's sequence is
exactly the input-ordered sequence of that key's entries, duplicates
included, and the empty pincode never becomes a key. -/
theorem bank_serviceability_accumulation (rows : List Row) (p : String)
    (hp : p ≠ "") :
    (bankLoop rows).lookup p =
      appendOpt none (rows.filterMap (bankHit p)) ∧
    (bankLoop rows).lookup "" = none ∧
    ∀ b : Row, bankPin b = specSelect b pincodeKeys ∧
      (bankEntryOf b).bank = specSelect b bankNameKeys ∧
      (bankEntryOf b).status = specSelect b bankStatusKeys :=
  ⟨bankLoop_lookup rows p hp, bankLoop_lookup_empty rows, fun b =>
    ⟨bankPin_eq_specSelect b, bankEntry_bank_eq_specSelect b,
      bankEntry_status_eq_specSelect b⟩⟩

/-- C4, witness: the theorem applied to the spec's two-row example plus one
dropped empty-pincode row, and the resulting concrete sequence. -/
theorem bank_serviceability_accumulation_witness :
    ("110001" : String) ≠ "" ∧
    ((bankLoop [[("pincode", some "110001"), ("bank", some "X"),
        ("status", some "serviceable")],
      [("pincode", some "110001"), ("bank", some "Y"),
        ("status", some "partial")],
      [("pincode", some ""), ("bank", some "Z"),
        ("status", some "no")]]).lookup "110001" =
      appendOpt none
        (([[("pincode", some "110001"), ("bank", some "X"),
            ("status", some "serviceable")],
          [("pincode", some "110001"), ("bank", some "Y"),
            ("status", some "partial")],
          [("pincode", some ""), ("bank", some "Z"),
            ("status", some "no")]] : List Row).filterMap
          (bankHit "110001")) ∧
    (bankLoop [[("pincode", some "110001"), ("bank", some "X"),
        ("status", some "serviceable")],
      [("pincode", some "110001"), ("bank", some "Y"),
        ("status", some "partial")],
      [("pincode", some ""), ("bank", some "Z"),
        ("status", some "no")]]).lookup "" = none ∧
    ∀ b : Row, bankPin b = specSelect b pincodeKeys ∧
      (bankEntryOf b).bank = specSelect b bankNameKeys ∧
      (bankEntryOf b).status = specSelect b bankStatusKeys) ∧
    (bankLoop [[("pincode", some "110001"), ("bank", some "X"),
        ("status", some "serviceable")],
      [("pincode", some "110001"), ("bank", some "Y"),
        ("status", some "partial")],
      [("pincode", some ""), ("bank", some "Z"),
        ("status", some "no")]]).lookup "110001" =
      some [{ bank := "X", status := "serviceable" },
            { bank := "Y", status := "partial" }] :=
  ⟨by decide, bank_serviceability_accumulation _ _ (by decide), by decide⟩

/-- C5: when the path given for `--pincsv` has no readable file, the run
terminates with a non-zero exit status and writes no file at all — in
particular none of `pincodes.json`, `index.json` and
`bank_serviceability.json`. -/
theorem missing_pincsv_file_aborts_without_outputs (pincsv : String)
    (bankcsvArg outdirArg : Option String)
    (fs : String → Option (List Row)) (hfs : fs pincsv = none) :
    (runMain (some pincsv) bankcsvArg outdirArg fs).exitCode ≠ 0 ∧
    (runMain (some pincsv) bankcsvArg outdirArg fs).written = [] := by
  simp [runMain, hfs]

/-- C5, witness: a file system with no files, and a concrete invocation. -/
theorem missing_pincsv_file_aborts_without_outputs_witness :
    ((fun _ => none) : String → Option (List Row)) "pins.csv" = none ∧
    ((runMain (some "pins.csv") none none
        (fun _ => (none : Option (List Row)))).exitCode ≠ 0 ∧
      (runMain (some "pins.csv") none none
        (fun _ => (none : Option (List Row)))).written = []) :=
  ⟨rfl, missing_pincsv_file_aborts_without_outputs "pins.csv" none none
    (fun _ => none) rfl⟩

/-- C6: when the required `--pincsv` argument is missing, `argparse` reports
a usage error and the process exits with status 2 before any filesystem
operation: no directory is created, no file is read, no file is written. -/
theorem missing_pincsv_argument_usage_error
    (bankcsvArg outdirArg : Option String)
    (fs : String → Option (List Row)) :
    (runMain none bankcsvArg outdirArg fs).exitCode ≠ 0 ∧
    (runMain none bankcsvArg outdirArg fs).dirsCreated = [] ∧
    (runMain none bankcsvArg outdirArg fs).reads = [] ∧
    (runMain none bankcsvArg outdirArg fs).written = [] :=
  ⟨Nat.succ_ne_zero 1, rfl, rfl, rfl⟩

/-- C7: when `--bankcsv` is omitted and the postal-code table is readable,
the run succeeds with exit status 0, reads only the postal-code table,
writes exactly `pincodes.json` and `index.json`, and does not write
`bank_serviceability.json`. -/
theorem omitted_bankcsv_skips_bank_output (pincsv : String)
    (outdirArg : Option String) (rows : List Row)
    (fs : String → Option (List Row)) (hfs : fs pincsv = some rows) :
    (runMain (some pincsv) none outdirArg fs).exitCode = 0 ∧
    (runMain (some pincsv) none outdirArg fs).reads = [pincsv] ∧
    writtenPaths (runMain (some pincsv) none outdirArg fs) =
      [joinPath (outdirArg.getD "mock-api") "pincodes.json",
       joinPath (outdirArg.getD "mock-api") "index.json"] ∧
    joinPath (outdirArg.getD "mock-api") "bank_serviceability.json" ∉
      writtenPaths (runMain (some pincsv) none outdirArg fs) := by
  refine ⟨by simp [runMain, hfs], by simp [runMain, hfs],
    by simp [runMain, hfs, writtenPaths], ?_⟩
  simp only [runMain, hfs, writtenPaths, List.map_cons, List.map_nil,
    List.mem_cons, List.not_mem_nil, or_false]
  rintro (h | h)
  · have := joinPath_data_inj _ _ _ h
    exact absurd this (by decide)
  · have := joinPath_data_inj _ _ _ h
    exact absurd this (by decide)

/-- C7, witness: a file system holding one empty postal-code table, read
through a concrete invocation with the default output directory. -/
theorem omitted_bankcsv_skips_bank_output_witness :
    ((fun _ => some []) : String → Option (List Row)) "pins.csv" =
      some [] ∧
    ((runMain (some "pins.csv") none none
        (fun _ => (some [] : Option (List Row)))).exitCode = 0 ∧
      (runMain (some "pins.csv") none none
        (fun _ => (some [] : Option (List Row)))).reads = ["pins.csv"] ∧
      writtenPaths (runMain (some "pins.csv") none none
          (fun _ => (some [] : Option (List Row)))) =
        [joinPath ((none : Option String).getD "mock-api") "pincodes.json",
         joinPath ((none : Option String).getD "mock-api") "index.json"] ∧
      joinPath ((none : Option String).getD "mock-api")
          "bank_serviceability.json" ∉
        writtenPaths (runMain (some "pins.csv") none none
          (fun _ => (some [] : Option (List Row))))) :=
  ⟨rfl, omitted_bankcsv_skips_bank_output "pins.csv" none []
    (fun _ => some []) rfl⟩

/-- C8: serializing the in-memory array of normalized records produced by
the accumulation loop to the JSON written as `pincodes.json` and parsing it
back field by field yields exactly the records that produced it. -/
theorem pincodes_json_roundtrip (rows : List Row) :
    jsonToRecords (pincodesJson (mainLoop rows).1) =
      some (mainLoop rows).1 :=
  jsonToRecordList_map (mainLoop rows).1

/-- C9: after any number of iterations of the accumulation loop, every key
of the index maps to a record whose pincode field equals that key, and that
record is the last element of the records array whose pincode equals the
key (in particular it is an element of the array). -/
theorem index_self_consistency (rows : List Row) (n : Nat) (k : String)
    (v : PincodeRecord)
    (h : (mainLoop (rows.take n)).2.lookup k = some v) :
    v.pincode = k ∧
    ((mainLoop (rows.take n)).1.filter (fun r => r.pincode = k)).getLast? =
      some v ∧
    v ∈ (mainLoop (rows.take n)).1 := by
  have hl := mainLoop_lookup (rows.take n) k
  rw [h] at hl
  have hlast :
      ((mainLoop (rows.take n)).1.filter (fun r => r.pincode = k)).getLast?
        = some v := hl.symm
  have hmemo : v ∈ ((mainLoop (rows.take n)).1.filter
      (fun r => r.pincode = k)).getLast? := by
    rw [hlast]; rfl
  have hmemf : v ∈ (mainLoop (rows.take n)).1.filter
      (fun r => r.pincode = k) := by
    rcases List.mem_getLast?_eq_getLast hmemo with ⟨hne, hv⟩
    rw [hv]
    exact List.getLast_mem hne
  have hmem := List.mem_filter.mp hmemf
  exact ⟨by simpa using hmem.2, hlast, hmem.1⟩

/-- C9, witness: the invariant instantiated after the first iteration on a
concrete input. -/
theorem index_self_consistency_witness :
    (mainLoop (([[("pincode", some "110001"), ("district", some "A")]] :
        List Row).take 1)).2.lookup "110001" =
      some { pincode := "110001", officeName := "", district := "A",
             state := "" } ∧
    (({ pincode := "110001", officeName := "", district := "A",
        state := "" } : PincodeRecord).pincode = "110001" ∧
      ((mainLoop (([[("pincode", some "110001"),
          ("district", some "A")]] : List Row).take 1)).1.filter
        (fun r => r.pincode = "110001")).getLast? =
        some { pincode := "110001", officeName := "", district := "A",
               state := "" } ∧
      ({ pincode := "110001", officeName := "", district := "A",
         state := "" } : PincodeRecord) ∈
        (mainLoop (([[("pincode", some "110001"),
          ("district", some "A")]] : List Row).take 1)).1) :=
  ⟨by decide, index_self_consistency _ 1 _ _ (by decide)⟩

/-- C10: the output directory is created before the postal-code table is
opened, so even a run that aborts because the `--pincsv` path has no
readable file, and therefore writes no file, leaves the output directory
created — the error path is not free of filesystem side effects. -/
theorem outdir_created_before_failing_read (pincsv : String)
    (bankcsvArg outdirArg : Option String)
    (fs : String → Option (List Row)) (hfs : fs pincsv = none) :
    (runMain (some pincsv) bankcsvArg outdirArg fs).dirsCreated =
      [outdirArg.getD "mock-api"] ∧
    (runMain (some pincsv) bankcsvArg outdirArg fs).written = [] ∧
    (runMain (some pincsv) bankcsvArg outdirArg fs).exitCode ≠ 0 := by
  simp [runMain, hfs]

/-- C10, witness: a concrete aborted invocation with an explicit output
directory. -/
theorem outdir_created_before_failing_read_witness :
    ((fun _ => none) : String → Option (List Row)) "nope.csv" = none ∧
    ((runMain (some "nope.csv") none (some "out")
        (fun _ => (none : Option (List Row)))).dirsCreated =
      [(some "out" : Option String).getD "mock-api"] ∧
      (runMain (some "nope.csv") none (some "out")
        (fun _ => (none : Option (List Row)))).written = [] ∧
      (runMain (some "nope.csv") none (some "out")
        (fun _ => (none : Option (List Row)))).exitCode ≠ 0) :=
  ⟨rfl, outdir_created_before_failing_read "nope.csv" none (some "out")
    (fun _ => none) rfl⟩

end ConvertPincodes
